import Mathlib

/-!
Shallow embedding of the `smtp` package (Go): a thin SMTP client wrapper
(`smtp.go`) and a MIME multipart email builder (`email.go`).

The connection manager talks to an external SMTP server through Go's
`net/smtp`.  We model the server side as a `Server` record of oracles
saying which protocol steps succeed, and every client operation returns,
besides its result, the list of network commands it issued (`NetEvent`),
so that claims of the form "no network I/O happens" are statable.
-/

set_option maxRecDepth 4000

/-- Byte values, as in Go's `byte`. -/
abbrev Byte := Fin 256

/-- Errors of the package.  `smtp.go` uses sentinel `error` values
(`ErrUnsupportedAuthExt`, `ErrFoundCRLF`, `ErrClientNotInitialized`) and
wrapped errors from each protocol stage; we give each stage its own
constructor. -/
inductive SmtpErr where
  | dialFailed
  | greetingFailed
  | helloFailed
  | startTLSFailed
  | unsupportedAuthExt
  | authFailed
  | foundCRLF
  | clientNotInitialized
  | mailFailed
  | rcptFailed
  | dataFailed
  | writeFailed
  | closeWriterFailed
  | quitFailed
  deriving DecidableEq, Repr

/-- Network commands a client operation can issue over the wire. -/
inductive NetEvent where
  | dial
  | greeting
  | hello
  | startTLS
  | auth
  | noop
  | mail (sender : String)
  | rcpt (addr : String)
  | dataCmd
  | writeData
  | quit
  deriving DecidableEq, Repr

/-- Oracle describing the remote SMTP server's behaviour: which steps
succeed and which extensions its EHLO capability advertisement lists. -/
structure Server where
  dialOk : Bool
  greetingOk : Bool
  helloOk : Bool
  advertisesStartTLS : Bool
  startTLSOk : Bool
  advertisesAuth : Bool
  authOk : Bool
  noopOk : Bool
  mailOk : Bool
  rcptOk : String → Bool
  dataOk : Bool
  writeOk : Bool
  closeWriterOk : Bool
  quitOk : Bool

/-- `Options` from `smtp.go`: parameters to build a `Client`. -/
structure Options where
  host : String
  port : Int
  login : String
  password : String

/-- An `smtp.Auth` strategy.  `smtp.PlainAuth(identity, username, password, host)`
is the only one the package constructs. -/
inductive Auth where
  | plain (identity username password host : String)
  deriving DecidableEq

/-- `Client` from `smtp.go`.  The Go field `client *smtp.Client` is the
stored connection handle: `none` when nil, `some h` when it holds a live
handle `h` (handles carry an identity so that "replaced by the new one"
is expressible).  `auth` is `Option` because the Go field has interface
type and is compared against nil in `Connect`. -/
structure Client where
  opts : Options
  auth : Option Auth
  client : Option Nat

/-- `NewClient` from `smtp.go`: always derives a PlainAuth strategy from
the options. -/
def NewClient (opts : Options) : Client :=
  { opts := opts
    auth := some (.plain "" opts.login opts.password opts.host)
    client := none }

/-- `Client.Connect` from `smtp.go`, lines 56-97.  Performs in order:
dial, `smtp.NewClient` (reads the server greeting), `Hello`, then
`StartTLS` if advertised, then — if an auth strategy is configured —
requires the AUTH extension and authenticates.  Every failing step
returns early with an error, leaving the struct untouched; only the
final success assigns `c.client = client` (the fresh handle `fresh`).
Returns (result, updated client, issued network commands). -/
def Client.Connect (c : Client) (srv : Server) (fresh : Nat) :
    Except SmtpErr Unit × Client × List NetEvent :=
  if !srv.dialOk then (.error .dialFailed, c, [.dial])
  else if !srv.greetingOk then (.error .greetingFailed, c, [.dial, .greeting])
  else if !srv.helloOk then (.error .helloFailed, c, [.dial, .greeting, .hello])
  else if srv.advertisesStartTLS && !srv.startTLSOk then
    (.error .startTLSFailed, c, [.dial, .greeting, .hello, .startTLS])
  else
    let evs := [.dial, .greeting, .hello] ++
      (if srv.advertisesStartTLS then [NetEvent.startTLS] else [])
    match c.auth with
    | some _ =>
      if !srv.advertisesAuth then (.error .unsupportedAuthExt, c, evs)
      else if !srv.authOk then (.error .authFailed, c, evs ++ [.auth])
      else (.ok (), { c with client := some fresh }, evs ++ [.auth])
    | none => (.ok (), { c with client := some fresh }, evs)

/-- `strings.ContainsAny(line, "\r\n")`: does the line contain a
carriage-return or line-feed character? -/
def hasCRLF (line : String) : Bool :=
  line.data.any (fun ch => ch == '\r' || ch == '\n')

/-- `validateLine` from `smtp.go`: rejects a line containing CR or LF
with `ErrFoundCRLF`. -/
def validateLine (line : String) : Except SmtpErr Unit :=
  if hasCRLF line then .error .foundCRLF else .ok ()

/-- The recipient-validation loop at the top of `Client.Send`: the first
recipient containing CR or LF aborts with the wrapped `ErrFoundCRLF`. -/
def validateLines : List String → Except SmtpErr Unit
  | [] => .ok ()
  | r :: rest =>
    match validateLine r with
    | .error e => .error e
    | .ok () => validateLines rest

/-- The RCPT loop of `Client.Send`: recipients are announced in order and
the first rejected one aborts (later recipients are not attempted). -/
def sendRcpts (srv : Server) : List String → Except SmtpErr Unit × List NetEvent
  | [] => (.ok (), [])
  | addr :: rest =>
    if srv.rcptOk addr then
      let (r, evs) := sendRcpts srv rest
      (r, .rcpt addr :: evs)
    else (.error .rcptFailed, [.rcpt addr])

/-- `Client.Send` from `smtp.go`, lines 118-159.  Validates the sender
and every recipient (no I/O), then requires a handle
(`ErrClientNotInitialized` otherwise), then issues MAIL, each RCPT, DATA,
writes the payload and closes the data writer.  The client struct is
never modified; the returned list records the commands issued. -/
def Client.Send (c : Client) (srv : Server) (toAddrs : List String)
    (sender : String) (msg : List Byte) :
    Except SmtpErr Unit × List NetEvent :=
  match validateLine sender with
  | .error e => (.error e, [])
  | .ok () =>
    match validateLines toAddrs with
    | .error e => (.error e, [])
    | .ok () =>
      match c.client with
      | none => (.error .clientNotInitialized, [])
      | some _ =>
        if !srv.mailOk then (.error .mailFailed, [.mail sender])
        else
          match sendRcpts srv toAddrs with
          | (.error e, evs) => (.error e, .mail sender :: evs)
          | (.ok (), evs) =>
            if !srv.dataOk then (.error .dataFailed, .mail sender :: evs ++ [.dataCmd])
            else if !srv.writeOk then
              (.error .writeFailed, .mail sender :: evs ++ [.dataCmd, .writeData])
            else if !srv.closeWriterOk then
              (.error .closeWriterFailed, .mail sender :: evs ++ [.dataCmd, .writeData])
            else (.ok (), .mail sender :: evs ++ [.dataCmd, .writeData])

/-- `Client.Close` from `smtp.go`, lines 161-166: if a handle exists it
returns `c.client.Quit()`; otherwise nil.  Note the Go code never
assigns `c.client = nil`, so the struct is returned unchanged. -/
def Client.Close (c : Client) (srv : Server) :
    Except SmtpErr Unit × Client × List NetEvent :=
  match c.client with
  | some _ =>
    ((if srv.quitOk then .ok () else .error .quitFailed), c, [.quit])
  | none => (.ok (), c, [])

/-- `Client.EnsureConnected` from `smtp.go`: probe with NOOP when a
handle exists, reconnect on probe failure or when no handle exists. -/
def Client.EnsureConnected (c : Client) (srv : Server) (fresh : Nat) :
    Except SmtpErr Unit × Client × List NetEvent :=
  match c.client with
  | some _ =>
    if srv.noopOk then (.ok (), c, [.noop])
    else
      let (r, c2, evs) := c.Connect srv fresh
      (r, c2, .noop :: evs)
  | none => c.Connect srv fresh

/-- The fixed multipart boundary token from `email.go`. -/
def boundary : String := "mail-boundary"

/-- An email attachment: a file name and its binary data. -/
structure attachment where
  name : String
  data : List Byte

/-- `Email` from `email.go`.  The Go fields `to` and `from` are Lean
keywords, so they are named `recipients` and `sender` here. -/
structure Email where
  recipients : List String
  sender : String
  subject : String
  body : String
  attachments : List attachment

/-- `NewEmail` from `email.go`: the constructor leaves `attachments` empty. -/
def NewEmail (recipients : List String) (sender subject body : String) : Email :=
  { recipients := recipients
    sender := sender
    subject := subject
    body := body
    attachments := [] }

/-- `Email.Attach` from `email.go`: appends one attachment, preserving order. -/
def Email.Attach (e : Email) (name : String) (data : List Byte) : Email :=
  { e with attachments := e.attachments ++ [{ name := name, data := data }] }

/-- The standard base64 alphabet used by Go's `encoding/base64.StdEncoding`. -/
def base64Alphabet : List Char :=
  "ABCDEFGHIJKLMNOPQRSTUVWXYZabcdefghijklmnopqrstuvwxyz0123456789+/".data

/-- The character for a 6-bit group. -/
def b64char (n : Nat) : Char := base64Alphabet.getD n 'A'

/-- `base64.StdEncoding.Encode`: emits four alphabet characters per three
input bytes, padding the final partial group with `=`. -/
def encodeAux : List Byte → List Char
  | [] => []
  | [b1] =>
    [b64char (b1.val / 4), b64char (b1.val % 4 * 16), '=', '=']
  | [b1, b2] =>
    [b64char (b1.val / 4), b64char (b1.val % 4 * 16 + b2.val / 16),
     b64char (b2.val % 16 * 4), '=']
  | b1 :: b2 :: b3 :: rest =>
    b64char (b1.val / 4) :: b64char (b1.val % 4 * 16 + b2.val / 16) ::
    b64char (b2.val % 16 * 4 + b3.val / 64) :: b64char (b3.val % 64) :: encodeAux rest

/-- Base64 encoding as a string, as written into the mail buffer. -/
def base64Encode (d : List Byte) : String := ⟨encodeAux d⟩

/-- Index of a character in the base64 alphabet (the decoding table). -/
def decodeChar (c : Char) : Option Nat :=
  base64Alphabet.findIdx? (fun x => x == c)

/-- A byte from a Nat, reducing modulo 256. -/
def byteOf (n : Nat) : Byte := ⟨n % 256, Nat.mod_lt _ (by decide)⟩

/-- Standard base64 decoding (specification-side inverse of
`base64Encode`): consumes four characters per group, honouring `=`
padding in the final group only. -/
def decodeAux : List Char → Option (List Byte)
  | [] => some []
  | c1 :: c2 :: c3 :: c4 :: rest =>
    match decodeChar c1, decodeChar c2 with
    | some v1, some v2 =>
      if c3 = '=' then
        if c4 = '=' ∧ rest = [] then some [byteOf (v1 * 4 + v2 / 16)] else none
      else
        match decodeChar c3 with
        | some v3 =>
          if c4 = '=' then
            if rest = [] then
              some [byteOf (v1 * 4 + v2 / 16), byteOf (v2 % 16 * 16 + v3 / 4)]
            else none
          else
            match decodeChar c4, decodeAux rest with
            | some v4, some bs =>
              some (byteOf (v1 * 4 + v2 / 16) :: byteOf (v2 % 16 * 16 + v3 / 4) ::
                    byteOf (v3 % 4 * 64 + v4) :: bs)
            | _, _ => none
        | none => none
    | _, _ => none
  | _ => none

/-- Base64 decoding of a string. -/
def base64Decode (s : String) : Option (List Byte) := decodeAux s.data

/-- One attachment part of the multipart document, as written by the
loop body in `Email.Build` (`email.go`, lines 62-72). -/
def attachPart (a : attachment) : String :=
  "\r\n\r\n--" ++ boundary ++ "\r\n" ++
  "Content-Type: text/plain; charset=\"utf-8\"\r\n" ++
  "Content-Transfer-Encoding: base64\r\n" ++
  "Content-Disposition: attachment; filename=" ++ a.name ++ "\r\n" ++
  "Content-ID: <" ++ a.name ++ ">\r\n\r\n" ++
  base64Encode a.data

/-- The header block and body part written by `Email.Build` before the
attachment loop (`email.go`, lines 52-60). -/
def buildPrefix (e : Email) : String :=
  "From: " ++ e.sender ++ "\r\n" ++
  "To: " ++ String.intercalate ";" e.recipients ++ "\r\n" ++
  "Subject: " ++ e.subject ++ "\r\n" ++
  "MIME-Version: 1.0\r\n" ++
  "Content-Type: multipart/mixed; boundary=" ++ boundary ++ "\r\n" ++
  "\r\n--" ++ boundary ++ "\r\n" ++
  "Content-Type: text/plain; charset=\"utf-8\"\r\n" ++
  "\r\n" ++ e.body

/-- The closing boundary delimiter written last by `Email.Build`. -/
def closingBoundary : String := "\r\n\r\n--" ++ boundary ++ "--"

/-- `Email.Build` from `email.go`, lines 49-77: header block, body part,
one part per attachment in order (the buffer-writing loop is a left
fold), then the closing boundary. -/
def Email.Build (e : Email) : String :=
  (e.attachments.foldl (fun acc a => acc ++ attachPart a) (buildPrefix e)) ++
  closingBoundary

/-! ## Helper lemmas about validation and the connection state machine -/

lemma validateLine_err {s : String} (h : hasCRLF s = true) :
    validateLine s = .error .foundCRLF := by
  simp [validateLine, h]

lemma validateLine_ok {s : String} (h : hasCRLF s = false) :
    validateLine s = .ok () := by
  simp [validateLine, h]

lemma validateLines_ok {l : List String} (h : ∀ r ∈ l, hasCRLF r = false) :
    validateLines l = .ok () := by
  induction l with
  | nil => rfl
  | cons r rest ih =>
    have hr : hasCRLF r = false := h r (by simp)
    simp [validateLines, validateLine_ok hr]
    exact ih (fun x hx => h x (by simp [hx]))

lemma validateLines_err {l : List String} (h : ∃ r ∈ l, hasCRLF r = true) :
    validateLines l = .error .foundCRLF := by
  induction l with
  | nil => simp at h
  | cons r rest ih =>
    by_cases hr : hasCRLF r = true
    · simp [validateLines, validateLine_err hr]
    · have hr' : hasCRLF r = false := by simpa using hr
      rcases h with ⟨x, hx, hcr⟩
      rcases List.mem_cons.mp hx with rfl | hx'
      · exact absurd hcr hr
      · simp [validateLines, validateLine_ok hr', ih ⟨x, hx', hcr⟩]

/-- `Send` on a sender or recipient containing CR or LF fails with the
wrapped `ErrFoundCRLF` before touching the network. -/
lemma send_crlf {c : Client} {srv : Server} {toAddrs : List String}
    {sender : String} {msg : List Byte}
    (h : hasCRLF sender = true ∨ ∃ r ∈ toAddrs, hasCRLF r = true) :
    c.Send srv toAddrs sender msg = (.error .foundCRLF, []) := by
  by_cases hs : hasCRLF sender = true
  · simp [Client.Send, validateLine_err hs]
  · have hs' : hasCRLF sender = false := by simpa using hs
    rcases h with h | h
    · exact absurd h hs
    · simp [Client.Send, validateLine_ok hs', validateLines_err h]

/-- C3: if the sender or any recipient contains a CR or LF character,
`Send` returns the invalid-address error `ErrFoundCRLF` and issues no
network command at all (in particular no MAIL, RCPT or DATA). -/
theorem send_crlf_no_network (c : Client) (srv : Server) (toAddrs : List String)
    (sender : String) (msg : List Byte)
    (h : hasCRLF sender = true ∨ ∃ r ∈ toAddrs, hasCRLF r = true) :
    c.Send srv toAddrs sender msg = (.error .foundCRLF, []) :=
  send_crlf h

/-- Witness for C3 at a concrete input: sender with an embedded LF. -/
theorem send_crlf_no_network_witness :
    (hasCRLF "a\nb" = true ∨ ∃ r ∈ ([] : List String), hasCRLF r = true) ∧
    Client.Send { opts := { host := "h", port := 25, login := "l", password := "p" },
                  auth := none, client := some 0 }
        { dialOk := true, greetingOk := true, helloOk := true,
          advertisesStartTLS := false, startTLSOk := true,
          advertisesAuth := true, authOk := true, noopOk := true,
          mailOk := true, rcptOk := fun _ => true, dataOk := true,
          writeOk := true, closeWriterOk := true, quitOk := true }
        [] "a\nb" [] = (.error .foundCRLF, []) := by
  refine ⟨Or.inl (by decide), send_crlf_no_network _ _ _ _ _ (Or.inl (by decide))⟩

/-- C5: with no stored handle and CR/LF-free addresses, `Send` fails with
`ErrClientNotInitialized` and issues no network command; it never
implicitly connects (the resulting event list is empty, so no dial
either). -/
theorem send_not_connected (c : Client) (srv : Server) (toAddrs : List String)
    (sender : String) (msg : List Byte)
    (hnil : c.client = none)
    (hs : hasCRLF sender = false)
    (hr : ∀ r ∈ toAddrs, hasCRLF r = false) :
    c.Send srv toAddrs sender msg = (.error .clientNotInitialized, []) := by
  simp [Client.Send, validateLine_ok hs, validateLines_ok hr, hnil]

/-- Witness for C5 at a concrete input. -/
theorem send_not_connected_witness :
    Client.Send { opts := { host := "h", port := 25, login := "l", password := "p" },
                  auth := none, client := none }
        { dialOk := true, greetingOk := true, helloOk := true,
          advertisesStartTLS := false, startTLSOk := true,
          advertisesAuth := true, authOk := true, noopOk := true,
          mailOk := true, rcptOk := fun _ => true, dataOk := true,
          writeOk := true, closeWriterOk := true, quitOk := true }
        ["to@domain.com"] "from@domain.com" [] =
      (.error .clientNotInitialized, []) :=
  send_not_connected _ _ _ _ _ rfl (by decide) (by decide)

/-- C10: with no stored handle, a CR/LF violation in the sender or a
recipient wins over the missing-handle check: `Send` returns the wrapped
`ErrFoundCRLF`, not `ErrClientNotInitialized`. -/
theorem send_validation_before_connectivity (c : Client) (srv : Server)
    (toAddrs : List String) (sender : String) (msg : List Byte)
    (hnil : c.client = none)
    (h : hasCRLF sender = true ∨ ∃ r ∈ toAddrs, hasCRLF r = true) :
    (c.Send srv toAddrs sender msg).1 = .error .foundCRLF ∧
    (c.Send srv toAddrs sender msg).1 ≠ .error .clientNotInitialized := by
  have : c.Send srv toAddrs sender msg = (.error .foundCRLF, []) := send_crlf h
  rw [this]
  exact ⟨rfl, by simp⟩

/-- Witness for C10 at a concrete input: no handle, recipient with CR. -/
theorem send_validation_before_connectivity_witness :
    (Client.Send { opts := { host := "h", port := 25, login := "l", password := "p" },
                   auth := none, client := none }
        { dialOk := true, greetingOk := true, helloOk := true,
          advertisesStartTLS := false, startTLSOk := true,
          advertisesAuth := true, authOk := true, noopOk := true,
          mailOk := true, rcptOk := fun _ => true, dataOk := true,
          writeOk := true, closeWriterOk := true, quitOk := true }
        ["bad\rrcpt"] "from@domain.com" []).1 = .error .foundCRLF ∧
    (Client.Send { opts := { host := "h", port := 25, login := "l", password := "p" },
                   auth := none, client := none }
        { dialOk := true, greetingOk := true, helloOk := true,
          advertisesStartTLS := false, startTLSOk := true,
          advertisesAuth := true, authOk := true, noopOk := true,
          mailOk := true, rcptOk := fun _ => true, dataOk := true,
          writeOk := true, closeWriterOk := true, quitOk := true }
        ["bad\rrcpt"] "from@domain.com" []).1 ≠ .error .clientNotInitialized :=
  send_validation_before_connectivity _ _ _ _ _ rfl
    (Or.inr ⟨"bad\rrcpt", by decide⟩)

/-- C4: with an auth strategy configured, if dial, greeting, hello and
the (possibly skipped) STARTTLS upgrade succeed but the capability
advertisement omits AUTH, `Connect` fails with `ErrUnsupportedAuthExt`
and no AUTH command is ever issued. -/
theorem connect_unsupported_auth_ext (c : Client) (srv : Server) (fresh : Nat)
    (hauth : c.auth.isSome = true)
    (hd : srv.dialOk = true) (hg : srv.greetingOk = true)
    (hh : srv.helloOk = true)
    (ht : srv.advertisesStartTLS = true → srv.startTLSOk = true)
    (hext : srv.advertisesAuth = false) :
    (c.Connect srv fresh).1 = .error .unsupportedAuthExt ∧
    NetEvent.auth ∉ (c.Connect srv fresh).2.2 := by
  rcases Option.isSome_iff_exists.mp hauth with ⟨a, ha⟩
  cases hst : srv.advertisesStartTLS
  · simp [Client.Connect, hd, hg, hh, hst, hext, ha]
  · simp [Client.Connect, hd, hg, hh, hst, ht hst, hext, ha]

/-- Witness for C4 at a concrete input. -/
theorem connect_unsupported_auth_ext_witness :
    (Client.Connect { opts := { host := "h", port := 25, login := "l", password := "p" },
                      auth := some (.plain "" "l" "p" "h"), client := none }
        { dialOk := true, greetingOk := true, helloOk := true,
          advertisesStartTLS := true, startTLSOk := true,
          advertisesAuth := false, authOk := true, noopOk := true,
          mailOk := true, rcptOk := fun _ => true, dataOk := true,
          writeOk := true, closeWriterOk := true, quitOk := true } 7).1 =
      .error .unsupportedAuthExt ∧
    NetEvent.auth ∉
      (Client.Connect { opts := { host := "h", port := 25, login := "l", password := "p" },
                        auth := some (.plain "" "l" "p" "h"), client := none }
        { dialOk := true, greetingOk := true, helloOk := true,
          advertisesStartTLS := true, startTLSOk := true,
          advertisesAuth := false, authOk := true, noopOk := true,
          mailOk := true, rcptOk := fun _ => true, dataOk := true,
          writeOk := true, closeWriterOk := true, quitOk := true } 7).2.2 :=
  connect_unsupported_auth_ext _ _ _ rfl rfl rfl rfl (fun _ => rfl) rfl

/-- Concrete options for witnesses and counterexamples. -/
def optsW : Options := { host := "h", port := 25, login := "l", password := "p" }

/-- A fully healthy server with both extensions advertised. -/
def srvAllOk : Server :=
  { dialOk := true, greetingOk := true, helloOk := true,
    advertisesStartTLS := true, startTLSOk := true,
    advertisesAuth := true, authOk := true, noopOk := true,
    mailOk := true, rcptOk := fun _ => true, dataOk := true,
    writeOk := true, closeWriterOk := true, quitOk := true }

/-- A healthy server whose capability advertisement omits AUTH. -/
def srvNoAuth : Server := { srvAllOk with advertisesAuth := false }

/-- A server that cannot even be dialled. -/
def srvDialFail : Server := { srvAllOk with dialOk := false }

/-- C9: `NewClient` always derives a (non-absent) PlainAuth strategy,
whatever the options — even empty login and password — so the
auth-configured branch of `Connect` is always taken: against any server
whose advertisement omits AUTH, `Connect` never succeeds, and if every
earlier step succeeds the error is exactly `ErrUnsupportedAuthExt`. -/
theorem newClient_always_authenticates (opts : Options) (srv : Server) (fresh : Nat)
    (hext : srv.advertisesAuth = false) :
    (NewClient opts).auth.isSome = true ∧
    ((NewClient opts).Connect srv fresh).1.isOk = false ∧
    (srv.dialOk = true → srv.greetingOk = true → srv.helloOk = true →
      (srv.advertisesStartTLS = true → srv.startTLSOk = true) →
      ((NewClient opts).Connect srv fresh).1 = .error .unsupportedAuthExt) := by
  refine ⟨rfl, ?_, ?_⟩
  · cases hd : srv.dialOk <;> cases hg : srv.greetingOk <;>
      cases hh : srv.helloOk <;> cases hst : srv.advertisesStartTLS <;>
      cases hso : srv.startTLSOk <;>
      simp [Client.Connect, NewClient, Except.isOk, Except.toBool, hd, hg, hh, hst, hso, hext]
  · intro hd hg hh ht
    cases hst : srv.advertisesStartTLS
    · simp [Client.Connect, NewClient, hd, hg, hh, hst, hext]
    · simp [Client.Connect, NewClient, hd, hg, hh, hst, ht hst, hext]

/-- Witness for C9 at concrete inputs: empty credentials against
`srvNoAuth`, and against `srvDialFail` with AUTH also missing. -/
theorem newClient_always_authenticates_witness :
    (NewClient { host := "h", port := 25, login := "", password := "" }).auth.isSome = true ∧
    ((NewClient { host := "h", port := 25, login := "", password := "" }).Connect
        srvNoAuth 0).1 = .error .unsupportedAuthExt := by
  have h := newClient_always_authenticates
    { host := "h", port := 25, login := "", password := "" } srvNoAuth 0 rfl
  exact ⟨h.1, h.2.2 rfl rfl rfl (fun _ => rfl)⟩

/-- Counterexample to C1: a client holding a handle from an earlier
successful connect calls `Connect` against an undialable server; the
call fails, yet the stored handle is not absent — the old handle is
still there, because `Connect` only ever assigns the field on success
and never clears it. -/
theorem connect_failure_keeps_prior_handle_cex :
    ((Client.mk optsW none (some 0)).Connect srvDialFail 1).1.isOk = false ∧
    ((Client.mk optsW none (some 0)).Connect srvDialFail 1).2.1.client ≠ none := by
  refine ⟨rfl, ?_⟩
  intro h
  simp [Client.Connect, srvDialFail, srvAllOk] at h

/-- C1 (amended): on every failing step of `Connect` the operation
returns an error and the stored handle is left exactly as it was before
the call (so a handle from an earlier successful connect is retained,
not discarded); on success the stored handle is the newly negotiated
one, replacing any prior handle.  Options and auth strategy are never
touched. -/
theorem connect_handle_update (c : Client) (srv : Server) (fresh : Nat) :
    (c.Connect srv fresh).2.1.client =
      (if (c.Connect srv fresh).1.isOk then some fresh else c.client) ∧
    (c.Connect srv fresh).2.1.opts = c.opts ∧
    (c.Connect srv fresh).2.1.auth = c.auth := by
  cases ha : c.auth <;>
    cases hd : srv.dialOk <;> cases hg : srv.greetingOk <;>
    cases hh : srv.helloOk <;> cases hst : srv.advertisesStartTLS <;>
    cases hso : srv.startTLSOk <;> cases hadv : srv.advertisesAuth <;>
    cases hao : srv.authOk <;>
    simp [Client.Connect, Except.isOk, Except.toBool, ha, hd, hg, hh, hst, hso, hadv, hao]

/-- Counterexample to C2: a client holding a handle calls `Close`; the
quit command succeeds, yet the stored handle is still present afterwards
— `Client.Close` never assigns `c.client = nil`. -/
theorem close_keeps_handle_cex :
    ((Client.mk optsW none (some 0)).Close srvAllOk).1 = .ok () ∧
    ((Client.mk optsW none (some 0)).Close srvAllOk).2.1.client ≠ none := by
  refine ⟨rfl, ?_⟩
  intro h
  simp [Client.Close, srvAllOk] at h

/-- C2 (amended): `Close` succeeds as a no-op, issuing nothing, when no
handle exists; when a handle exists it issues the QUIT command and
propagates its result; in every case the client struct — in particular
the stored handle — is returned unchanged: a present handle is not
released. -/
theorem close_behavior (c : Client) (srv : Server) :
    (c.Close srv).2.1 = c ∧
    (c.Close srv).2.2 = (if c.client.isSome then [NetEvent.quit] else []) ∧
    (c.Close srv).1 =
      (if c.client.isSome then
        (if srv.quitOk then .ok () else .error .quitFailed)
       else .ok ()) := by
  cases hc : c.client <;> simp [Client.Close, hc]

/-- C6: for the one-recipient, no-attachment message, `Build` produces
exactly the five CRLF-terminated header lines, the opening boundary, the
`text/plain` part carrying the body `B`, and the closing boundary
`--mail-boundary--` with nothing after it and no attachment parts. -/
theorem build_simple_message :
    (NewEmail ["to@domain.com"] "from@domain.com" "S" "B").Build =
      "From: from@domain.com\r\nTo: to@domain.com\r\nSubject: S\r\n" ++
      "MIME-Version: 1.0\r\nContent-Type: multipart/mixed; boundary=mail-boundary\r\n" ++
      "\r\n--mail-boundary\r\nContent-Type: text/plain; charset=\"utf-8\"\r\n" ++
      "\r\nB\r\n\r\n--mail-boundary--" := by
  decide

/-! ## String and base64 lemmas for the message builder -/

lemma strData_append (a b : String) : (a ++ b).data = a.data ++ b.data := rfl

lemma strAppend_assoc (a b c : String) : a ++ b ++ c = a ++ (b ++ c) := by
  apply String.ext
  simp [strData_append]

lemma strAppend_empty (a : String) : a ++ "" = a := by
  apply String.ext
  simp [strData_append]

lemma strJoin_cons (s : String) (l : List String) :
    String.join (s :: l) = s ++ String.join l := by
  apply String.ext
  simp [String.join_eq, strData_append]

lemma decodeChar_b64char_fin : ∀ m : Fin 64, decodeChar (b64char m.val) = some m.val := by
  decide

lemma decodeChar_b64char {n : Nat} (h : n < 64) : decodeChar (b64char n) = some n :=
  decodeChar_b64char_fin ⟨n, h⟩

lemma b64char_ne_pad_fin : ∀ m : Fin 64, b64char m.val ≠ '=' := by decide

lemma b64char_ne_pad {n : Nat} (h : n < 64) : b64char n ≠ '=' :=
  b64char_ne_pad_fin ⟨n, h⟩

/-- Standard padded base64 decoding inverts the encoding on every byte
sequence. -/
lemma encode_decode (d : List Byte) : decodeAux (encodeAux d) = some d := by
  induction d using encodeAux.induct with
  | case1 => rfl
  | case2 b1 =>
    have hb1 := b1.isLt
    have h1 : b1.val / 4 < 64 := by omega
    have h2 : b1.val % 4 * 16 < 64 := by omega
    simp only [encodeAux, decodeAux, decodeChar_b64char h1, decodeChar_b64char h2]
    simp only [byteOf, reduceIte, and_self, if_true, Option.some.injEq, List.cons.injEq,
      and_true, Fin.ext_iff, Fin.val_mk]
    omega
  | case3 b1 b2 =>
    have hb1 := b1.isLt
    have hb2 := b2.isLt
    have h1 : b1.val / 4 < 64 := by omega
    have h2 : b1.val % 4 * 16 + b2.val / 16 < 64 := by omega
    have h3 : b2.val % 16 * 4 < 64 := by omega
    simp only [encodeAux, decodeAux, decodeChar_b64char h1, decodeChar_b64char h2,
      decodeChar_b64char h3]
    rw [if_neg (b64char_ne_pad h3)]
    simp only [byteOf, reduceIte, and_self, if_true, Option.some.injEq, List.cons.injEq,
      and_true, Fin.ext_iff, Fin.val_mk]
    omega
  | case4 b1 b2 b3 rest ih =>
    have hb1 := b1.isLt
    have hb2 := b2.isLt
    have hb3 := b3.isLt
    have h1 : b1.val / 4 < 64 := by omega
    have h2 : b1.val % 4 * 16 + b2.val / 16 < 64 := by omega
    have h3 : b2.val % 16 * 4 + b3.val / 64 < 64 := by omega
    have h4 : b3.val % 64 < 64 := by omega
    simp only [encodeAux, decodeAux, decodeChar_b64char h1, decodeChar_b64char h2,
      decodeChar_b64char h3, decodeChar_b64char h4]
    rw [if_neg (b64char_ne_pad h3), if_neg (b64char_ne_pad h4), ih]
    simp only [byteOf, Option.some.injEq, List.cons.injEq, and_true, Fin.ext_iff, Fin.val_mk]
    omega

/-- The attachment loop of `Build` is a fold that appends one rendered
part per attachment, in order. -/
lemma foldl_attachParts (l : List attachment) (init : String) :
    l.foldl (fun acc a => acc ++ attachPart a) init =
      init ++ String.join (l.map attachPart) := by
  induction l generalizing init with
  | nil =>
    show init = init ++ String.join []
    rw [show String.join [] = "" from rfl, strAppend_empty]
  | cons a rest ih =>
    simp only [List.foldl_cons, List.map_cons]
    rw [ih, strJoin_cons, ← strAppend_assoc]

/-- `Build` decomposes into the header-and-body prefix, the rendered
attachment parts in order, and the closing boundary. -/
lemma Email.build_eq (e : Email) :
    e.Build = buildPrefix e ++ String.join (e.attachments.map attachPart) ++ closingBoundary := by
  unfold Email.Build
  rw [foldl_attachParts]

/-- C7: `Build` emits exactly one rendered part per attachment, after the
body part and in the order `Attach` appended them, and the base64
segment of each part decodes back to exactly the original attachment
bytes (standard alphabet, padded). -/
theorem build_attachment_parts (e : Email) :
    e.Build = buildPrefix e ++ String.join (e.attachments.map attachPart) ++ closingBoundary ∧
    (e.attachments.map attachPart).length = e.attachments.length ∧
    e.attachments.map (fun a => base64Decode (base64Encode a.data)) =
      e.attachments.map (fun a => some a.data) ∧
    ∀ name data, (e.Attach name data).attachments =
      e.attachments ++ [{ name := name, data := data }] := by
  refine ⟨e.build_eq, List.length_map _ _, ?_, fun name data => rfl⟩
  simp only [base64Decode, base64Encode, encode_decode]

/-! ## Bare line-feed analysis of the built message -/

/-- Scans a character list knowing the previous character: true iff no
`\n` occurs whose immediate predecessor is not `\r`. -/
def noBareLFFrom : Char → List Char → Bool
  | _, [] => true
  | prev, c :: rest => (c != '\n' || prev == '\r') && noBareLFFrom c rest

/-- True iff every line-feed in the list is immediately preceded by a
carriage-return (a leading line-feed counts as bare). -/
def noBareLF : List Char → Bool
  | [] => true
  | c :: rest => c != '\n' && noBareLFFrom c rest

/-- `noBareLF` on the characters of a string. -/
def strNoBareLF (s : String) : Bool := noBareLF s.data

lemma noBareLFFrom_of_noBareLF {l : List Char} (h : noBareLF l = true) (p : Char) :
    noBareLFFrom p l = true := by
  cases l with
  | nil => rfl
  | cons c rest =>
    simp only [noBareLF, Bool.and_eq_true] at h
    simp [noBareLFFrom, h.1, h.2]

lemma noBareLFFrom_append (s t : List Char) (p : Char) :
    noBareLFFrom p (s ++ t) = (noBareLFFrom p s && noBareLFFrom (s.getLastD p) t) := by
  induction s generalizing p with
  | nil => simp [noBareLFFrom, List.getLastD]
  | cons c rest ih =>
    show ((c != '\n' || p == '\r') && noBareLFFrom c (rest ++ t)) = _
    rw [ih c, List.getLastD_cons, ← Bool.and_assoc]
    rfl

lemma noBareLF_append {s t : List Char} (hs : noBareLF s = true) (ht : noBareLF t = true) :
    noBareLF (s ++ t) = true := by
  cases s with
  | nil => simpa using ht
  | cons c rest =>
    simp only [List.cons_append, noBareLF, Bool.and_eq_true] at hs ⊢
    refine ⟨hs.1, ?_⟩
    rw [noBareLFFrom_append]
    simp [hs.2, noBareLFFrom_of_noBareLF ht]

lemma strNoBareLF_append {s t : String} (hs : strNoBareLF s = true)
    (ht : strNoBareLF t = true) : strNoBareLF (s ++ t) = true := by
  unfold strNoBareLF at *
  rw [strData_append]
  exact noBareLF_append hs ht

lemma noBareLFFrom_of_not_mem {l : List Char} (h : '\n' ∉ l) (p : Char) :
    noBareLFFrom p l = true := by
  induction l generalizing p with
  | nil => rfl
  | cons c rest ih =>
    simp only [List.mem_cons, not_or] at h
    have hc : (c != '\n') = true := by
      simp [bne_iff_ne]
      exact fun hcc => h.1 hcc.symm
    simp [noBareLFFrom, hc, ih h.2]

lemma noBareLF_of_not_mem {l : List Char} (h : '\n' ∉ l) : noBareLF l = true := by
  cases l with
  | nil => rfl
  | cons c rest =>
    simp only [List.mem_cons, not_or] at h
    have hc : (c != '\n') = true := by
      simp [bne_iff_ne]
      exact fun hcc => h.1 hcc.symm
    simp [noBareLF, hc, noBareLFFrom_of_not_mem h.2]

lemma b64char_ne_lf_fin : ∀ m : Fin 64, b64char m.val ≠ '\n' := by decide

lemma b64char_ne_lf (n : Nat) : b64char n ≠ '\n' := by
  by_cases h : n < 64
  · exact b64char_ne_lf_fin ⟨n, h⟩
  · unfold b64char
    rw [List.getD_eq_default]
    · decide
    · have : base64Alphabet.length = 64 := rfl
      omega

lemma lf_not_mem_encodeAux (d : List Byte) : '\n' ∉ encodeAux d := by
  induction d using encodeAux.induct with
  | case1 => simp [encodeAux]
  | case2 b1 =>
    simp only [encodeAux, List.mem_cons, not_or]
    exact ⟨fun h => b64char_ne_lf _ h.symm, fun h => b64char_ne_lf _ h.symm,
      by decide, by decide, by simp⟩
  | case3 b1 b2 =>
    simp only [encodeAux, List.mem_cons, not_or]
    exact ⟨fun h => b64char_ne_lf _ h.symm, fun h => b64char_ne_lf _ h.symm,
      fun h => b64char_ne_lf _ h.symm, by decide, by simp⟩
  | case4 b1 b2 b3 rest ih =>
    simp only [encodeAux, List.mem_cons, not_or]
    exact ⟨fun h => b64char_ne_lf _ h.symm, fun h => b64char_ne_lf _ h.symm,
      fun h => b64char_ne_lf _ h.symm, fun h => b64char_ne_lf _ h.symm, ih⟩

lemma strNoBareLF_base64 (d : List Byte) : strNoBareLF (base64Encode d) = true :=
  noBareLF_of_not_mem (lf_not_mem_encodeAux d)

lemma strNoBareLF_join {l : List String} (h : ∀ x ∈ l, strNoBareLF x = true) :
    strNoBareLF (String.join l) = true := by
  induction l with
  | nil => rfl
  | cons a as ih =>
    rw [strJoin_cons]
    exact strNoBareLF_append (h a (by simp)) (ih fun x hx => h x (by simp [hx]))

lemma strNoBareLF_intercalate_go {sep : String} (hsep : strNoBareLF sep = true) :
    ∀ (l : List String) (acc : String), strNoBareLF acc = true →
      (∀ r ∈ l, strNoBareLF r = true) →
      strNoBareLF (String.intercalate.go acc sep l) = true := by
  intro l
  induction l with
  | nil => intro acc hacc _; exact hacc
  | cons a as ih =>
    intro acc hacc h
    show strNoBareLF (String.intercalate.go (acc ++ sep ++ a) sep as) = true
    exact ih _ (strNoBareLF_append (strNoBareLF_append hacc hsep) (h a (by simp)))
      (fun r hr => h r (by simp [hr]))

lemma strNoBareLF_intercalate {sep : String} {l : List String}
    (hsep : strNoBareLF sep = true) (h : ∀ r ∈ l, strNoBareLF r = true) :
    strNoBareLF (String.intercalate sep l) = true := by
  cases l with
  | nil => rfl
  | cons a as =>
    show strNoBareLF (String.intercalate.go a sep as) = true
    exact strNoBareLF_intercalate_go hsep as a (h a (by simp))
      (fun r hr => h r (by simp [hr]))

lemma strNoBareLF_attachPart {a : attachment} (h : strNoBareLF a.name = true) :
    strNoBareLF (attachPart a) = true := by
  unfold attachPart
  repeat' apply strNoBareLF_append
  all_goals first
    | exact h
    | exact strNoBareLF_base64 _
    | decide

lemma strNoBareLF_buildPrefix {e : Email}
    (hf : strNoBareLF e.sender = true)
    (hr : ∀ r ∈ e.recipients, strNoBareLF r = true)
    (hs : strNoBareLF e.subject = true)
    (hb : strNoBareLF e.body = true) :
    strNoBareLF (buildPrefix e) = true := by
  unfold buildPrefix
  repeat' apply strNoBareLF_append
  all_goals first
    | exact hf
    | exact hs
    | exact hb
    | exact strNoBareLF_intercalate (by decide) hr
    | decide

/-- Counterexample to C8: a message whose body (`"B"`) and attachment
data (there are no attachments) contain no bare line-feed, but whose
subject contains a bare `\n`; the subject is copied verbatim into the
header block, so the built output contains a line-feed not preceded by a
carriage-return. -/
theorem build_bare_lf_cex :
    strNoBareLF (Email.mk ["to@domain.com"] "from@domain.com" "S\nT" "B" []).body = true ∧
    (Email.mk ["to@domain.com"] "from@domain.com" "S\nT" "B" []).attachments = [] ∧
    strNoBareLF (Email.mk ["to@domain.com"] "from@domain.com" "S\nT" "B" []).Build = false := by
  refine ⟨rfl, rfl, ?_⟩
  decide

/-- C8 (amended): if the sender, every recipient, the subject, the body
text and every attachment file name contain no bare line-feed (every
`\n` in them is preceded by `\r`), then no line-feed byte in the
`Build` output appears without an immediately preceding carriage-return
byte — attachment data needs no such restriction, since it is base64
encoded. -/
theorem build_crlf_separators (e : Email)
    (hf : strNoBareLF e.sender = true)
    (hr : ∀ r ∈ e.recipients, strNoBareLF r = true)
    (hs : strNoBareLF e.subject = true)
    (hb : strNoBareLF e.body = true)
    (hn : ∀ a ∈ e.attachments, strNoBareLF a.name = true) :
    strNoBareLF e.Build = true := by
  rw [Email.build_eq]
  refine strNoBareLF_append
    (strNoBareLF_append (strNoBareLF_buildPrefix hf hr hs hb) ?_) (by decide)
  refine strNoBareLF_join ?_
  intro x hx
  rcases List.mem_map.mp hx with ⟨a, ha, rfl⟩
  exact strNoBareLF_attachPart (hn a ha)

/-- Witness for C8 (amended) at a concrete input: an attachment whose
data contains a bare line-feed byte (10) — base64 keeps it off the
wire. -/
theorem build_crlf_separators_witness :
    strNoBareLF (Email.mk ["to@domain.com"] "from@domain.com" "S" "B"
      [{ name := "f.txt", data := [10, 200] }]).Build = true :=
  build_crlf_separators _ (by decide) (by decide) (by decide) (by decide) (by decide)
